import Mathlib

/-!
Verification of the freelanceru-notifier poller (src/main.py, src/config.py)
against its natural-language specification.

Modelling conventions:
* Python strings are `List Char`; `str.lower()` is `List.map Char.toLower`;
  the substring test `needle in hay` is `hasSubstr`; `str.strip()` is
  `stripStr` (drop whitespace from both ends).
* `datetime` publish times are `Nat` (only their linear order matters).
* `feedparser.parse` results are a `FetchResult`: a bozo flag (truthy
  `bozo_exception`) plus the parsed entries.
* The poller's mutable state (`self.entries`, `self.last_pubdate`,
  `self.blacklist`) is the structure `FeedPoller`; methods become functions
  returning the updated state.
* `bot.send_message` outcomes are a `DeliveryResult`; `send_pack` is a
  function of the outcomes of its (at most two) send calls, recording the
  messages attempted and the exception, if any, escaping to the caller.
-/

/-- Whitespace test matching Python `str.strip` / `str.lower` behaviour on
the ASCII whitespace characters. -/
def isSpace (c : Char) : Bool :=
  c == ' ' || c == '\t' || c == '\n' || c == '\r' ||
    c == Char.ofNat 11 || c == Char.ofNat 12

/-- `startsWith needle hay`: `needle` is a prefix of `hay`. -/
def startsWith : List Char → List Char → Bool
  | [], _ => true
  | _ :: _, [] => false
  | a :: as, b :: bs => a == b && startsWith as bs

/-- Python substring containment `needle in hay`. -/
def hasSubstr (needle : List Char) : List Char → Bool
  | [] => startsWith needle []
  | b :: bs => startsWith needle (b :: bs) || hasSubstr needle bs

/-- Python `str.lower()` (ASCII case folding). -/
def lowerStr (s : List Char) : List Char := s.map Char.toLower

/-- Python `str.strip()`: remove whitespace from both ends. -/
def stripStr (s : List Char) : List Char :=
  ((s.dropWhile isSpace).reverse.dropWhile isSpace).reverse

/-- Right strip only (helper used to describe `stripStr` on strings with a
non-whitespace head). -/
def rstripStr (s : List Char) : List Char :=
  (s.reverse.dropWhile isSpace).reverse

/-- Python `sep.join(parts)`. -/
def joinStr (sep : List Char) : List (List Char) → List Char
  | [] => []
  | [m] => m
  | m :: m2 :: ms => m ++ sep ++ joinStr sep (m2 :: ms)

/-- A normalized feed entry (`Entry` namedtuple in src/main.py). -/
structure Entry where
  title : List Char
  pubdate : Nat
  description : List Char
  link : List Char
deriving DecidableEq

/-- Result of `feedparser.parse`: either a bozo error, or a list of parsed
entries (already converted by `from_feed_entry`). -/
structure FetchResult where
  bozo : Bool
  entries : List Entry
deriving DecidableEq

/-- The mutable state of `FeedPoller` (url omitted: it only routes the
fetch, which is an input here). -/
structure FeedPoller where
  entries : List Entry
  last_pubdate : Option Nat
  blacklist : List (List Char)
deriving DecidableEq

/-- `FeedPoller.is_blacklist`: lower-case title and description, return true
iff some blacklist word occurs in either. -/
def FeedPoller.is_blacklist (p : FeedPoller) (e : Entry) : Bool :=
  p.blacklist.any fun word =>
    hasSubstr word (lowerStr e.title) || hasSubstr word (lowerStr e.description)

/-- The `for entry in self.entries` loop of `FeedPoller.update` collecting
`new_entries`: skip when the watermark is absent or `entry.pubdate <
last_pubdate`, skip blacklisted entries, keep the rest in order. -/
def newEntriesLoop (p : FeedPoller) : List Entry → List Entry
  | [] => []
  | entry :: rest =>
    match p.last_pubdate with
    | none => newEntriesLoop p rest
    | some w =>
      if entry.pubdate < w then newEntriesLoop p rest
      else if p.is_blacklist entry then newEntriesLoop p rest
      else entry :: newEntriesLoop p rest

/-- Python `max(list, default=None)` over the entries' pubdates. -/
def maxPubdate : List Entry → Option Nat
  | [] => none
  | e :: rest =>
    match maxPubdate rest with
    | none => some e.pubdate
    | some m => some (max e.pubdate m)

/-- `FeedPoller.update`: on a bozo fetch log and return `[]` leaving the
state untouched; otherwise store the fetched entries, collect the new ones
against the old watermark, then set `last_pubdate` to
`max(pubdates, default=None)` over the freshly fetched list. -/
def FeedPoller.update (p : FeedPoller) (feed : FetchResult) :
    FeedPoller × List Entry :=
  if feed.bozo then (p, [])
  else
    let p1 : FeedPoller := { p with entries := feed.entries }
    let news := newEntriesLoop p1 feed.entries
    ({ p1 with last_pubdate := maxPubdate feed.entries }, news)

/-- One iteration of `FeedPoller.poll_packs`: run `update`, and yield the
new entries as a pack only when the list is non-empty (Python truthiness of
`if news:`). -/
def FeedPoller.poll_step (p : FeedPoller) (feed : FetchResult) :
    FeedPoller × Option (List Entry) :=
  let r := p.update feed
  (r.1, if r.2.isEmpty then none else some r.2)

/-- Folding `update` over a sequence of fetch results (successive poll
cycles). -/
def FeedPoller.run : FeedPoller → List FetchResult → FeedPoller
  | p, [] => p
  | p, f :: fs => FeedPoller.run (p.update f).1 fs

/-- The inter-cycle sleep of `poll_packs`: `if delta < interval:
time.sleep(interval - delta)`, i.e. no sleep when the cycle overran. -/
def sleepSeconds (interval delta : ℚ) : ℚ :=
  if delta < interval then interval - delta else 0

/-- Telegram parse modes (only the one the code uses matters). -/
inductive ParseMode
  | html
  | markdown
deriving DecidableEq

/-- Outcome of one `bot.send_message` call: success, or a raised
`TelegramError` carrying `str(error)`. -/
inductive DeliveryResult
  | success
  | telegramError (errStr : List Char)
deriving DecidableEq

/-- `TelegramSender.format_entry_msg`: substitute link, title and
description verbatim into the two-line template
`<a href="{link}">{title}</a>` / `{description}` joined by a newline, then
`strip()` the result. -/
def format_entry_msg (entry : Entry) : List Char :=
  stripStr (("<a href=\"".toList ++ entry.link ++ "\">".toList ++ entry.title
    ++ "</a>".toList) ++ "\n".toList ++ entry.description)

/-- The `for entry in pack` loop of `format_pack_msg` building the list of
per-entry messages in pack order. -/
def packMessages : List Entry → List (List Char)
  | [] => []
  | e :: rest => format_entry_msg e :: packMessages rest

/-- `TelegramSender.format_pack_msg`: per-entry messages joined by a blank
line. -/
def format_pack_msg (pack : List Entry) : List Char :=
  joinStr "\n\n".toList (packMessages pack)

/-- `TelegramSender.format_error_msg`: `"TypeName: str(err)"`, and when the
optional message is truthy (non-empty), append `"; Attempted to send:\n"`
and the message. -/
def format_error_msg (errType errStr msg : List Char) : List Char :=
  let base := errType ++ ": ".toList ++ errStr
  if msg.isEmpty then base
  else base ++ "; Attempted to send:\n".toList ++ msg

/-- What a call of `TelegramSender.send_pack` did: the texts passed to
`bot.send_message` in order, and the exception (if any) escaping to the
caller of `send_pack`. -/
structure SendPackResult where
  attempts : List (List Char)
  raised : Option (List Char)
deriving DecidableEq

/-- The `parse_mode` argument of the first `send_message` call in
`send_pack`. -/
def send_pack_parse_mode : ParseMode := ParseMode.html

/-- The `disable_web_page_preview` argument of the first `send_message`
call in `send_pack`. -/
def send_pack_disable_preview : Bool := true

/-- `TelegramSender.send_pack`, as a function of the outcomes of its send
calls: the first `send_message` (the formatted pack) sits in a
`try/except TelegramError`; on failure the handler logs and issues a second
`send_message` with `format_error_msg` — that second call is NOT guarded,
so its failure escapes `send_pack`. `second` is only consulted when the
first call fails. -/
def send_pack (first second : DeliveryResult) (pack : List Entry) :
    SendPackResult :=
  let msg := format_pack_msg pack
  match first with
  | DeliveryResult.success => { attempts := [msg], raised := none }
  | DeliveryResult.telegramError errStr =>
    let emsg := format_error_msg "TelegramError".toList errStr msg
    match second with
    | DeliveryResult.success => { attempts := [msg, emsg], raised := none }
    | DeliveryResult.telegramError e2 =>
      { attempts := [msg, emsg], raised := some e2 }

/-- The configured description length limit (src/config.py): default
`None`; a local config may set a number. Defined only to state that the
renderer ignores it. -/
def LIMIT_DESCRIPTION : Option Nat := none

/-- Modelled from the spec's words, for comparison with `is_blacklist`
(refinement check): true iff some blocked keyword, case-folded, is a
substring of the case-folded title or of the case-folded description. -/
def isBlockedSpec (blacklist : List (List Char)) (e : Entry) : Bool :=
  blacklist.any fun word =>
    hasSubstr (lowerStr word) (lowerStr e.title) ||
      hasSubstr (lowerStr word) (lowerStr e.description)

/-! ## Helper lemmas -/

lemma mem_newEntriesLoop (p : FeedPoller) (l : List Entry) (e : Entry) :
    e ∈ newEntriesLoop p l ↔
      e ∈ l ∧ (∃ w, p.last_pubdate = some w ∧ w ≤ e.pubdate) ∧
        p.is_blacklist e = false := by
  induction l with
  | nil => simp [newEntriesLoop]
  | cons a rest ih =>
    cases hw : p.last_pubdate with
    | none =>
      simp only [newEntriesLoop, hw] at ih ⊢
      simp at ih ⊢
      exact ih
    | some w =>
      simp only [newEntriesLoop, hw] at ih ⊢
      by_cases h1 : a.pubdate < w
      · rw [if_pos h1, ih]
        constructor
        · rintro ⟨he, hge, hbl⟩
          exact ⟨List.mem_cons_of_mem _ he, hge, hbl⟩
        · rintro ⟨he, ⟨w', hw', hge⟩, hbl⟩
          simp only [Option.some.injEq] at hw'
          subst hw'
          rcases List.mem_cons.mp he with rfl | he'
          · omega
          · exact ⟨he', ⟨w, rfl, hge⟩, hbl⟩
      · rw [if_neg h1]
        by_cases h2 : p.is_blacklist a
        · rw [if_pos h2, ih]
          constructor
          · rintro ⟨he, hge, hbl⟩
            exact ⟨List.mem_cons_of_mem _ he, hge, hbl⟩
          · rintro ⟨he, hge, hbl⟩
            rcases List.mem_cons.mp he with rfl | he'
            · rw [h2] at hbl; cases hbl
            · exact ⟨he', hge, hbl⟩
        · rw [if_neg h2]
          simp only [List.mem_cons, ih]
          constructor
          · rintro (rfl | ⟨he, hge, hbl⟩)
            · exact ⟨Or.inl rfl, ⟨w, rfl, by omega⟩,
                Bool.not_eq_true _ ▸ eq_false_of_ne_true h2⟩
            · exact ⟨Or.inr he, hge, hbl⟩
          · rintro ⟨rfl | he', hge, hbl⟩
            · exact Or.inl rfl
            · exact Or.inr ⟨he', hge, hbl⟩

lemma maxPubdate_eq_none (l : List Entry) : maxPubdate l = none ↔ l = [] := by
  cases l with
  | nil => simp [maxPubdate]
  | cons a rest =>
    simp only [maxPubdate]
    cases maxPubdate rest <;> simp

lemma maxPubdate_spec (l : List Entry) (m : Nat) (h : maxPubdate l = some m) :
    (∃ e ∈ l, e.pubdate = m) ∧ ∀ e ∈ l, e.pubdate ≤ m := by
  induction l generalizing m with
  | nil => simp [maxPubdate] at h
  | cons a rest ih =>
    simp only [maxPubdate] at h
    cases hr : maxPubdate rest with
    | none =>
      rw [hr] at h
      simp only [Option.some.injEq] at h
      have hnil : rest = [] := (maxPubdate_eq_none rest).mp hr
      subst hnil
      exact ⟨⟨a, by simp, h⟩, by simp [h]⟩
    | some mr =>
      rw [hr] at h
      simp only [Option.some.injEq] at h
      obtain ⟨⟨e0, he0, he0m⟩, hall⟩ := ih mr hr
      subst h
      constructor
      · rcases Nat.le_total a.pubdate mr with hle | hle
        · exact ⟨e0, List.mem_cons_of_mem _ he0,
            by rw [he0m, Nat.max_eq_right hle]⟩
        · exact ⟨a, List.mem_cons_self _ _, (Nat.max_eq_left hle).symm⟩
      · intro e he
        rcases List.mem_cons.mp he with rfl | he'
        · exact Nat.le_max_left _ _
        · exact le_trans (hall e he') (Nat.le_max_right _ _)

/-! ## Claims -/

/-- C1, counterexample: with the watermark at 10 and an empty blacklist, a
fetched entry whose publish time equals the watermark IS returned among the
new entries by `FeedPoller.update`, although its publish time is not
strictly greater than the watermark — the code's comparison is inclusive,
refuting the strict greater-than law. -/
theorem c1_equal_watermark_included :
    (⟨"t".toList, 10, "d".toList, "l".toList⟩ : Entry) ∈
      ((⟨[], some 10, []⟩ : FeedPoller).update
        ⟨false, [⟨"t".toList, 10, "d".toList, "l".toList⟩]⟩).2 ∧
    ¬ (10 < (⟨"t".toList, 10, "d".toList, "l".toList⟩ : Entry).pubdate) := by
  decide

/-- C1, amended: a fetched entry is included in the new-entries result of
`FeedPoller.update` iff the watermark is present, the entry's publish time
is greater than OR EQUAL to the watermark, and the entry is not
blacklisted; in particular an entry whose publish time equals the current
watermark IS included (when not blacklisted). -/
theorem c1_new_iff_geq_watermark (p : FeedPoller) (feed : FetchResult)
    (e : Entry) (hb : feed.bozo = false) :
    e ∈ (p.update feed).2 ↔
      e ∈ feed.entries ∧ (∃ w, p.last_pubdate = some w ∧ w ≤ e.pubdate) ∧
        p.is_blacklist e = false := by
  unfold FeedPoller.update
  rw [hb]
  simp only [Bool.false_eq_true, if_false]
  exact mem_newEntriesLoop _ _ _

/-- C1, witness: the amended characterization at a concrete input — with
the watermark at 10, an entry published at 12 is reported new. -/
theorem c1_new_iff_geq_watermark_witness :
    (⟨"t".toList, 12, "d".toList, "l".toList⟩ : Entry) ∈
      ((⟨[], some 10, []⟩ : FeedPoller).update
        ⟨false, [⟨"t".toList, 12, "d".toList, "l".toList⟩]⟩).2 :=
  (c1_new_iff_geq_watermark ⟨[], some 10, []⟩
      ⟨false, [⟨"t".toList, 12, "d".toList, "l".toList⟩]⟩
      ⟨"t".toList, 12, "d".toList, "l".toList⟩ rfl).mpr
    ⟨by decide, ⟨10, rfl, by decide⟩, by decide⟩

/-- C2, counterexample: with the watermark at 10, a successful fetch whose
only entry is published at 5 moves the watermark BACK to 5 — `update`
overwrites it with the max over the latest fetch alone, so monotonicity
fails. -/
theorem c2_watermark_rollback :
    (⟨[], some 10, []⟩ : FeedPoller).last_pubdate = some 10 ∧
    ((⟨[], some 10, []⟩ : FeedPoller).update
        ⟨false, [⟨"t".toList, 5, "d".toList, "l".toList⟩]⟩).1.last_pubdate
      = some 5 ∧
    ¬ (10 ≤ 5) := by
  decide

/-- C2, amended: the watermark is NOT monotone. After `FeedPoller.update`
it equals the previous watermark when the fetch failed, and otherwise the
maximum publish time over exactly the freshly fetched entries (absent when
that fetch was empty) — so it can decrease, or be reset to absent, whenever
the latest fetch reports older or no entries. The second conjunct pins down
`maxPubdate` as a genuine maximum. -/
theorem c2_watermark_from_latest_fetch (p : FeedPoller) (feed : FetchResult) :
    (p.update feed).1.last_pubdate
        = (if feed.bozo then p.last_pubdate else maxPubdate feed.entries) ∧
    ∀ m, maxPubdate feed.entries = some m →
      (∃ e ∈ feed.entries, e.pubdate = m) ∧
        ∀ e ∈ feed.entries, e.pubdate ≤ m := by
  constructor
  · unfold FeedPoller.update
    cases hb : feed.bozo <;> simp
  · exact fun m h => maxPubdate_spec feed.entries m h

/-- C2, witness: the amended statement applied at a one-entry fetch — the
new watermark is the fetched entry's publish time 5, which is both attained
and an upper bound. -/
theorem c2_watermark_from_latest_fetch_witness :
    (∃ e ∈ [(⟨"t".toList, 5, "d".toList, "l".toList⟩ : Entry)],
        e.pubdate = 5) ∧
    ∀ e ∈ [(⟨"t".toList, 5, "d".toList, "l".toList⟩ : Entry)],
        e.pubdate ≤ 5 :=
  (c2_watermark_from_latest_fetch ⟨[], some 10, []⟩
      ⟨false, [⟨"t".toList, 5, "d".toList, "l".toList⟩]⟩).2 5 (by decide)

/-- C4, counterexample: a successful fetch with zero entries does NOT leave
the watermark unchanged — `max([], default=None)` resets it from `some 5`
to `none` (absent). -/
theorem c4_empty_fetch_resets_watermark :
    ((⟨[], some 5, []⟩ : FeedPoller).update ⟨false, []⟩).1.last_pubdate
      = none ∧
    (⟨[], some 5, []⟩ : FeedPoller).last_pubdate = some 5 ∧
    ((⟨[], some 5, []⟩ : FeedPoller).update ⟨false, []⟩).1.last_pubdate
      ≠ (⟨[], some 5, []⟩ : FeedPoller).last_pubdate := by
  decide

/-- C4, amended: a successful fetch with zero entries yields no new entries
and no pack (`poll_step` emits nothing), but it RESETS the watermark to
absent rather than leaving it unchanged. -/
theorem c4_empty_fetch_no_pack (p : FeedPoller) (feed : FetchResult)
    (hb : feed.bozo = false) (he : feed.entries = []) :
    (p.update feed).2 = [] ∧ (p.update feed).1.last_pubdate = none ∧
      (p.poll_step feed).2 = none := by
  simp [FeedPoller.update, FeedPoller.poll_step, hb, he, newEntriesLoop,
    maxPubdate]

/-- C4, witness: the amended statement at a concrete poller with watermark
5 and an empty successful fetch. -/
theorem c4_empty_fetch_no_pack_witness :
    ((⟨[], some 5, []⟩ : FeedPoller).update ⟨false, []⟩).2 = [] ∧
    ((⟨[], some 5, []⟩ : FeedPoller).update ⟨false, []⟩).1.last_pubdate
      = none ∧
    ((⟨[], some 5, []⟩ : FeedPoller).poll_step ⟨false, []⟩).2 = none :=
  c4_empty_fetch_no_pack ⟨[], some 5, []⟩ ⟨false, []⟩ rfl rfl

/-- C5: when the fetch reports a parse/transport failure (truthy
`bozo_exception`), `FeedPoller.update` returns the unchanged poller state —
same stored entries, same watermark — together with an empty list of new
entries, and `poll_step` emits no pack; being a total function, it raises
nothing, so the next cycle runs. -/
theorem c5_fetch_error_preserves_state (p : FeedPoller) (feed : FetchResult)
    (hb : feed.bozo = true) :
    p.update feed = (p, []) ∧ (p.poll_step feed).2 = none := by
  have h : p.update feed = (p, []) := by
    unfold FeedPoller.update
    rw [hb]
    simp
  refine ⟨h, ?_⟩
  unfold FeedPoller.poll_step
  rw [h]
  simp

/-- C5, witness: a bozo fetch against a concrete poller leaves the state
intact and produces no pack. -/
theorem c5_fetch_error_preserves_state_witness :
    (⟨[⟨"t".toList, 3, "d".toList, "l".toList⟩], some 3, []⟩ : FeedPoller).update
        ⟨true, []⟩
      = (⟨[⟨"t".toList, 3, "d".toList, "l".toList⟩], some 3, []⟩, []) ∧
    ((⟨[⟨"t".toList, 3, "d".toList, "l".toList⟩], some 3, []⟩ : FeedPoller).poll_step
        ⟨true, []⟩).2 = none :=
  c5_fetch_error_preserves_state
    ⟨[⟨"t".toList, 3, "d".toList, "l".toList⟩], some 3, []⟩ ⟨true, []⟩ rfl

/-- C6, counterexample: `is_blacklist` lower-cases the title and
description but NOT the keywords; with blocklist `["A"]` and title `"a"`,
the case-folded keyword `"a"` is a substring of the case-folded title, yet
`is_blacklist` returns false — so the case-insensitive iff fails for
keywords containing upper-case letters. -/
theorem c6_uppercase_keyword_missed :
    (⟨[], none, [['A']]⟩ : FeedPoller).is_blacklist ⟨['a'], 0, [], []⟩
      = false ∧
    isBlockedSpec [['A']] ⟨['a'], 0, [], []⟩ = true := by
  decide

/-- C6, amended: `is_blacklist(entry)` is true iff some blocked keyword, AS
GIVEN (not case-folded), is a substring of the lower-cased title or of the
lower-cased description; with an empty blocklist it always returns false;
and when every keyword is already lower-case it agrees with the
case-insensitive specification `isBlockedSpec`. -/
theorem c6_blacklist_characterization (p : FeedPoller) (e : Entry) :
    (p.is_blacklist e = true ↔
      ∃ w ∈ p.blacklist, hasSubstr w (lowerStr e.title) = true ∨
        hasSubstr w (lowerStr e.description) = true) ∧
    (p.blacklist = [] → p.is_blacklist e = false) ∧
    ((∀ w ∈ p.blacklist, lowerStr w = w) →
      p.is_blacklist e = isBlockedSpec p.blacklist e) := by
  refine ⟨?_, ?_, ?_⟩
  · unfold FeedPoller.is_blacklist
    simp [List.any_eq_true]
  · intro h
    unfold FeedPoller.is_blacklist
    rw [h]
    rfl
  · intro h
    rcases p with ⟨pe, pl, bl⟩
    simp only [FeedPoller.is_blacklist, isBlockedSpec] at h ⊢
    induction bl with
    | nil => rfl
    | cons w ws ih =>
      have hw : lowerStr w = w := h w (List.mem_cons_self _ _)
      have hws : ∀ x ∈ ws, lowerStr x = x :=
        fun x hx => h x (List.mem_cons_of_mem _ hx)
      simp only [List.any_cons, hw, ih hws]

/-- C6, witness: the spec's own scenario — blocklist `["scam"]`, title
`"Great SCAM opportunity"` — is blocked: the keyword occurs in the
lower-cased title. -/
theorem c6_blacklist_characterization_witness :
    (⟨[], none, ["scam".toList]⟩ : FeedPoller).is_blacklist
      ⟨"Great SCAM opportunity".toList, 0, [], []⟩ = true :=
  (c6_blacklist_characterization ⟨[], none, ["scam".toList]⟩
      ⟨"Great SCAM opportunity".toList, 0, [], []⟩).1.mpr
    ⟨"scam".toList, by decide, Or.inl (by decide)⟩

/-- C3, counterexample: when the first delivery fails AND the follow-up
diagnostic delivery also fails, `send_pack` does NOT swallow the second
failure — the second `send_message` sits outside the `try`, so its
`TelegramError` escapes to the caller (`raised` is not `none`), and the
poll loop, which catches only `KeyboardInterrupt`, would terminate. -/
theorem c3_second_failure_propagates :
    (send_pack (DeliveryResult.telegramError "boom".toList)
        (DeliveryResult.telegramError "boom again".toList)
        [⟨"t".toList, 1, "d".toList, "l".toList⟩]).raised
      = some "boom again".toList ∧
    (send_pack (DeliveryResult.telegramError "boom".toList)
        (DeliveryResult.telegramError "boom again".toList)
        [⟨"t".toList, 1, "d".toList, "l".toList⟩]).raised ≠ none := by
  constructor
  · rfl
  · intro h
    simp [send_pack, format_pack_msg, format_error_msg] at h

/-- C3, amended: `send_pack` always first attempts the formatted pack; if
that first delivery fails it makes exactly one follow-up attempt with the
diagnostic message, and no error reaches the caller when the first
delivery or the follow-up succeeds — but when the follow-up also fails,
that failure is NOT swallowed: it propagates out of `send_pack` to the
poll loop. -/
theorem c3_send_pack_behaviour (first second : DeliveryResult)
    (pack : List Entry) :
    ((send_pack first second pack).attempts.head?
        = some (format_pack_msg pack)) ∧
    (first = DeliveryResult.success →
      send_pack first second pack = ⟨[format_pack_msg pack], none⟩) ∧
    (∀ es, first = DeliveryResult.telegramError es →
      (send_pack first second pack).attempts
        = [format_pack_msg pack,
           format_error_msg "TelegramError".toList es (format_pack_msg pack)] ∧
      (second = DeliveryResult.success →
        (send_pack first second pack).raised = none) ∧
      (∀ e2, second = DeliveryResult.telegramError e2 →
        (send_pack first second pack).raised = some e2)) := by
  cases first <;> cases second <;> simp [send_pack]

/-- C3, witness: the amended behaviour at a concrete failing first
delivery with a succeeding follow-up — both messages are attempted and
nothing propagates. -/
theorem c3_send_pack_behaviour_witness :
    (send_pack (DeliveryResult.telegramError "boom".toList)
        DeliveryResult.success
        [⟨"t".toList, 1, "d".toList, "l".toList⟩]).attempts
      = [format_pack_msg [⟨"t".toList, 1, "d".toList, "l".toList⟩],
         format_error_msg "TelegramError".toList "boom".toList
           (format_pack_msg [⟨"t".toList, 1, "d".toList, "l".toList⟩])] ∧
    (send_pack (DeliveryResult.telegramError "boom".toList)
        DeliveryResult.success
        [⟨"t".toList, 1, "d".toList, "l".toList⟩]).raised = none := by
  have h := (c3_send_pack_behaviour (DeliveryResult.telegramError "boom".toList)
      DeliveryResult.success [⟨"t".toList, 1, "d".toList, "l".toList⟩]).2.2
      "boom".toList rfl
  exact ⟨h.1, h.2.1 rfl⟩

/-- C7: the configuration option `LIMIT_DESCRIPTION` (default `none` in
src/config.py, possibly overridden locally) is never consulted by the
renderer — `format_entry_msg` takes no limit and, for a concrete entry
whose description has 10 characters, the full 10-character description
appears untruncated in the rendered message, so any configured limit below
10 (e.g. 5) is violated. -/
theorem c7_description_limit_ignored :
    hasSubstr "0123456789".toList
        (format_entry_msg
          ⟨"t".toList, 0, "0123456789".toList, "l".toList⟩) = true ∧
    ("0123456789".toList).length = 10 ∧ LIMIT_DESCRIPTION = none := by
  exact ⟨by decide, by decide, rfl⟩

/-- C8: the inter-cycle pause equals `max(0, interval - elapsed)`: a cycle
finishing early sleeps the remaining time, and a cycle that overran the
interval sleeps zero (the next cycle starts immediately). -/
theorem c8_sleep_max_formula (interval delta : ℚ) :
    sleepSeconds interval delta = max 0 (interval - delta) := by
  unfold sleepSeconds
  by_cases h : delta < interval
  · rw [if_pos h, max_eq_right]
    have : (0 : ℚ) < interval - delta := by linarith
    linarith
  · rw [if_neg h, max_eq_left]
    push_neg at h
    linarith

lemma packMessages_eq_map (l : List Entry) :
    packMessages l = l.map format_entry_msg := by
  induction l with
  | nil => rfl
  | cons e rest ih => simp [packMessages, ih]

lemma dropWhile_append_split (p : Char → Bool) (u v : List Char) :
    (u ++ v).dropWhile p =
      if (u.dropWhile p).isEmpty then v.dropWhile p
      else u.dropWhile p ++ v := by
  induction u with
  | nil => simp
  | cons a u ih =>
    by_cases h : p a
    · simpa [List.dropWhile_cons, h] using ih
    · simp [List.dropWhile_cons, h]

lemma stripStr_eq_rstripStr_of_head (s : List Char) (c : Char)
    (hc : isSpace c = false) (hs : s.head? = some c) :
    stripStr s = rstripStr s := by
  cases s with
  | nil => simp at hs
  | cons a t =>
    simp only [List.head?_cons, Option.some.injEq] at hs
    subst hs
    unfold stripStr rstripStr
    simp [List.dropWhile_cons, hc]

lemma rstripStr_append (u v : List Char) (c : Char) (hc : isSpace c = false)
    (hu : u.getLast? = some c) : rstripStr (u ++ v) = u ++ rstripStr v := by
  have hur : u.reverse.dropWhile isSpace = u.reverse := by
    have hh : u.reverse.head? = some c := by
      rw [List.head?_reverse]; exact hu
    cases hr : u.reverse with
    | nil => rfl
    | cons b t =>
      rw [hr] at hh
      simp only [List.head?_cons, Option.some.injEq] at hh
      subst hh
      simp [List.dropWhile_cons, hc]
  unfold rstripStr
  rw [List.reverse_append, dropWhile_append_split]
  by_cases hv : (v.reverse.dropWhile isSpace).isEmpty
  · rw [if_pos hv, hur, List.reverse_reverse]
    have hv' : v.reverse.dropWhile isSpace = [] := List.isEmpty_iff.mp hv
    rw [hv']
    simp
  · rw [if_neg hv, List.reverse_append, List.reverse_reverse]

/-- C9: per entry, the rendered message is exactly the link-wrapped title
line followed by the description, joined with a single newline and then
trimmed; per pack, the rendered message is the entries' rendered strings in
pack (fetch) order joined with a blank line — the pack is mapped, never
re-sorted. -/
theorem c9_render_shapes (entry : Entry) (pack : List Entry) :
    format_entry_msg entry
      = stripStr ("<a href=\"".toList ++ entry.link ++ "\">".toList
          ++ entry.title ++ "</a>".toList ++ "\n".toList
          ++ entry.description) ∧
    format_pack_msg pack
      = joinStr "\n\n".toList (pack.map format_entry_msg) := by
  constructor
  · unfold format_entry_msg
    simp [List.append_assoc]
  · unfold format_pack_msg
    rw [packMessages_eq_map]

/-- C10: `format_entry_msg` interpolates the entry's link, title and
description verbatim — no HTML escaping of `<`, `>`, `&` or quotes ever
happens: the rendered message is literally the raw link and title embedded
in the anchor markup, followed by the right-stripped newline-description —
while `send_pack` delivers with the HTML rich-text parse mode, so markup
characters in the fields reach the destination unescaped. -/
theorem c10_no_html_escaping (e : Entry) :
    format_entry_msg e
      = "<a href=\"".toList ++ e.link ++ "\">".toList ++ e.title
        ++ "</a>".toList ++ rstripStr ("\n".toList ++ e.description) ∧
    send_pack_parse_mode = ParseMode.html := by
  refine ⟨?_, rfl⟩
  have hhead : (("<a href=\"".toList ++ e.link ++ "\">".toList ++ e.title
      ++ "</a>".toList) ++ "\n".toList ++ e.description).head? = some '<' := rfl
  have hlast : ("<a href=\"".toList ++ e.link ++ "\">".toList ++ e.title
      ++ "</a>".toList).getLast? = some '>' := by
    rw [show "</a>".toList = '<' :: '/' :: 'a' :: '>' :: [] from rfl,
      List.getLast?_append_cons]
    rfl
  calc format_entry_msg e
      = rstripStr (("<a href=\"".toList ++ e.link ++ "\">".toList ++ e.title
          ++ "</a>".toList) ++ "\n".toList ++ e.description) := by
        unfold format_entry_msg
        exact stripStr_eq_rstripStr_of_head _ '<' (by decide) hhead
    _ = rstripStr (("<a href=\"".toList ++ e.link ++ "\">".toList ++ e.title
          ++ "</a>".toList) ++ ("\n".toList ++ e.description)) := by
        rw [List.append_assoc]
    _ = "<a href=\"".toList ++ e.link ++ "\">".toList ++ e.title
          ++ "</a>".toList ++ rstripStr ("\n".toList ++ e.description) :=
        rstripStr_append _ _ '>' (by decide) hlast
